import Mathlib

/-!
Formal model of the data-store ingestion/IO subsystem
(`dynemo/data/io.py`) and of the bounded-view time-series object
(`vrad/data/_base.py`).

Arrays are modelled by their shape and element type: every claim under
study is about shapes, dtypes, control flow and filesystem effects, not
about numeric values.  Fallible Python code is modelled with `Except`.
The filesystem is a list of (path, content) pairs plus a list of
existing directories; directory entries are derived from file paths.
-/

set_option autoImplicit false

namespace OslDyn

/-- Element types of numpy arrays that matter to the model. -/
inductive DType where
  | float32
  | float64
  | int32
  | int64
  deriving DecidableEq, Repr

/-- A numpy array, modelled by shape and element type. -/
structure NpArr where
  shape : List Nat
  dtype : DType
  deriving DecidableEq, Repr

/-- Model of `arr.astype(np.float32)`. -/
def NpArr.astypeF32 (a : NpArr) : NpArr :=
  { a with dtype := DType.float32 }

/-- Model of `arr.T`: numpy transpose reverses the axis order. -/
def NpArr.transpose (a : NpArr) : NpArr :=
  { a with shape := a.shape.reverse }

/-- Model of `arr.shape[-1]` (the trailing, channel, dimension). -/
def shapeLast (a : NpArr) : Nat :=
  a.shape.getLastD 0

/-- Python exceptions raised by the modelled code. -/
inductive PyErr where
  | fileNotFound (path : String)
  | valueError (msg : String)
  | keyError (msg : String)
  | typeError (msg : String)
  | notImplemented
  | otherError (msg : String)
  deriving DecidableEq, Repr

/-- Check whether the first character list is a leading segment of the second. -/
def isPrefixL : List Char → List Char → Bool
  | [], _ => true
  | _ :: _, [] => false
  | a :: as, b :: bs => a = b && isPrefixL as bs

/-- Check whether `pat` occurs contiguously inside `cs`. -/
def infixCheck (pat : List Char) : List Char → Bool
  | [] => isPrefixL pat []
  | c :: cs => isPrefixL pat (c :: cs) || infixCheck pat cs

/-- Model of the Python substring test `pat in s`. -/
def containsSubstr (s pat : String) : Bool :=
  infixCheck pat.toList s.toList

/-- Remove the leading segment `pre` from `ps`, if `ps` starts with it. -/
def stripPrefixL : List Char → List Char → Option (List Char)
  | [], ps => some ps
  | _ :: _, [] => none
  | a :: as, b :: bs => if a = b then stripPrefixL as bs else none

/-- Check whether `s` ends with `suf` (model of Python `str.endswith`). -/
def strEndsWith (s suf : String) : Bool :=
  isPrefixL suf.toList.reverse s.toList.reverse

/-- Index of the last occurrence of a dot in a character list, if any. -/
def lastDotFrom : List Char → Option Nat
  | [] => none
  | c :: cs =>
    match lastDotFrom cs with
    | some i => some (i + 1)
    | none => if c = '.' then some 0 else none

/-- Final path component of a character list (the part after the last slash). -/
def lastComponent (cs : List Char) : List Char :=
  cs.foldl (fun acc c => if c = '/' then [] else acc ++ [c]) []

/-- Model of `file_ext` in `dynemo/data/io.py`, which returns
`os.path.splitext(filename)[1]`: the extension starts at the last dot of
the final path component, except that dots leading that component do not
start an extension. -/
def file_ext (filename : String) : String :=
  let name := lastComponent filename.toList
  let lead := (name.takeWhile (fun c => c = '.')).length
  match lastDotFrom name with
  | none => ""
  | some i => if i < lead then "" else String.mk (name.drop i)

/-- Decimal string of `n`, left-padded with zeros to width `w`
(model of the Python format `i:0wd` used for backing-file names). -/
def zeroPad (w : Nat) (n : Nat) : String :=
  let s := toString n
  String.mk (List.replicate (w - s.length) '0') ++ s

/-! ### MATLAB file model (`loadmat` / `load_matlab`)

A `.mat` file is modelled by the outcomes of the two decoders the source
tries on it.  `scipy.io.loadmat` raises `NotImplementedError` on v7.3
files (the designated format-not-supported signal the source catches)
and may fail in other ways on corrupt input; `mat73.loadmat` either
yields a dictionary or fails. -/

/-- Outcome of `scipy.io.loadmat(filename, simplify_cells=True)`. -/
inductive ScipyOutcome where
  | ok (d : List (String × NpArr))
  | notSupported
  | fails (e : PyErr)
  deriving DecidableEq, Repr

instance exceptDecEq {ε α : Type} [DecidableEq ε] [DecidableEq α] :
    DecidableEq (Except ε α) := fun x y =>
  match x, y with
  | Except.ok a, Except.ok b =>
    if h : a = b then isTrue (by rw [h]) else isFalse (by simp [h])
  | Except.error a, Except.error b =>
    if h : a = b then isTrue (by rw [h]) else isFalse (by simp [h])
  | Except.ok _, Except.error _ => isFalse (fun h => Except.noConfusion h)
  | Except.error _, Except.ok _ => isFalse (fun h => Except.noConfusion h)

/-- Content of a MATLAB-family file: what each decoder would return on it.
The `spmData` field is the data of the contained SPM MEEG object.
Modelled from the spec: the `dynemo.data.spm` module (the
instrument-container special path) is not under `src/`; per the spec it
extracts the data array of the instrument object, which we carry here as
an abstract array. -/
structure MatFile where
  scipyResult : ScipyOutcome
  mat73Result : Except PyErr (List (String × NpArr))
  spmData : NpArr
  deriving DecidableEq, Repr

/-- Result of `loadmat`: either the whole dictionary or, when the file has a
single relevant field and `return_dict` is false, that field's array. -/
inductive MatValue where
  | dict (d : List (String × NpArr))
  | arr (a : NpArr)
  deriving DecidableEq, Repr

/-- The two MATLAB decoders, used to trace which ones a call attempts. -/
inductive Decoder where
  | scipy
  | mat73
  deriving DecidableEq, Repr

/-- Raw decode step of `loadmat`: try `scipy.io.loadmat`; on its
`NotImplementedError` fall back to `mat73.loadmat`; propagate any other
failure. -/
def loadmatDecode (f : MatFile) : Except PyErr (List (String × NpArr)) :=
  match f.scipyResult with
  | ScipyOutcome.ok d => Except.ok d
  | ScipyOutcome.notSupported => f.mat73Result
  | ScipyOutcome.fails e => Except.error e

/-- Decoders attempted by `loadmat`, in order: `scipy.io.loadmat` always
runs first; `mat73.loadmat` runs exactly when the first decoder raised
its format-not-supported signal. -/
def loadmatAttempts (f : MatFile) : List Decoder :=
  match f.scipyResult with
  | ScipyOutcome.notSupported => [Decoder.scipy, Decoder.mat73]
  | _ => [Decoder.scipy]

/-- Model of `loadmat` in `dynemo/data/io.py`.  After decoding, when
`return_dict` is false and exactly one field name lacks a double
underscore, that field's value is returned instead of the dictionary. -/
def loadmat (f : MatFile) (return_dict : Bool) : Except PyErr MatValue :=
  match loadmatDecode f with
  | Except.error e => Except.error e
  | Except.ok mat =>
    if return_dict then Except.ok (MatValue.dict mat)
    else
      match mat.filter (fun kv => !(containsSubstr kv.1 "__")) with
      | [kv] => Except.ok (MatValue.arr kv.2)
      | _ => Except.ok (MatValue.dict mat)

/-- Message of the missing-field `KeyError` raised by `load_matlab`. -/
def missingFieldMsg (field : String) : String :=
  "field \x27" ++ field ++ "\x27 missing from MATLAB file."

/-- Model of `load_matlab` in `dynemo/data/io.py`: decode with
`loadmat(..., return_dict=True)`; if the key `D` is present take the SPM
object's data, otherwise take the requested field, raising a `KeyError`
naming the field when absent.  (With `return_dict = true` the decode
always yields a dictionary; the array case below is unreachable.) -/
def load_matlab (f : MatFile) (field : String) : Except PyErr NpArr :=
  match loadmat f true with
  | Except.error e => Except.error e
  | Except.ok (MatValue.dict mat) =>
    if (mat.map Prod.fst).contains "D" then Except.ok f.spmData
    else
      match mat.find? (fun kv => kv.1 == field) with
      | some kv => Except.ok kv.2
      | none => Except.error (PyErr.keyError (missingFieldMsg field))
  | Except.ok (MatValue.arr _) =>
    Except.error (PyErr.typeError "argument of type ndarray is not iterable")

/-! ### Filesystem model -/

/-- Content stored at a file path. -/
inductive FileData where
  | npy (a : NpArr)
  | mat (m : MatFile)
  | pickle (n_embeddings : Nat) (pca_components : NpArr)
  | foreignPickle
  | other
  deriving DecidableEq, Repr

/-- A filesystem: files with contents, and the set of existing
directories.  The entries of a directory are derived from the file paths
lying directly inside it. -/
structure FS where
  files : List (String × FileData)
  dirs : List String
  deriving DecidableEq, Repr

/-- Content at path `p`, if a file exists there. -/
def FS.lookupFile (fs : FS) (p : String) : Option FileData :=
  (fs.files.find? (fun kv => kv.1 == p)).map Prod.snd

/-- Model of `os.path.isdir` applied to a string path. -/
def FS.isdirStr (fs : FS) (p : String) : Bool :=
  fs.dirs.contains p

/-- Model of `os.path.exists`: true for files and directories alike. -/
def FS.existsPath (fs : FS) (p : String) : Bool :=
  (fs.lookupFile p).isSome || fs.isdirStr p

/-- Write (create or overwrite) a file. -/
def FS.writeFile (fs : FS) (p : String) (d : FileData) : FS :=
  { fs with files := (p, d) :: fs.files.filter (fun kv => !(kv.1 == p)) }

/-- Model of `Path.mkdir(parents=True, exist_ok=True)`. -/
def FS.mkdir (fs : FS) (p : String) : FS :=
  if fs.dirs.contains p then fs else { fs with dirs := p :: fs.dirs }

/-- Strip the directory `d` from a path, giving the entry name if the
path lies directly inside `d`. -/
def stripEntry (d p : String) : Option String :=
  match stripPrefixL (d ++ "/").toList p.toList with
  | none => none
  | some rest =>
    if rest.isEmpty then none
    else if rest.contains '/' then none
    else some (String.mk rest)

/-- Entry names of directory `d` (model of `os.listdir`, in storage
order; the source always sorts them before use). -/
def FS.listdirNames (fs : FS) (d : String) : List String :=
  fs.files.filterMap (fun kv => stripEntry d kv.1)

/-- Remove any file at path `p`. -/
def eraseFile (fs : FS) (p : String) : FS :=
  { fs with files := fs.files.filter (fun kv => !(kv.1 == p)) }

/-- Remove the files at all the listed paths. -/
def eraseAll (fs : FS) (files : List String) : FS :=
  files.foldl eraseFile fs

/-- Model of `pathlib.Path.unlink(missing_ok=...)`. -/
def FS.unlink (fs : FS) (p : String) (missing_ok : Bool) : Except PyErr FS :=
  match fs.lookupFile p with
  | some _ => Except.ok (eraseFile fs p)
  | none =>
    if missing_ok then Except.ok fs else Except.error (PyErr.fileNotFound p)

/-- Model of `pathlib.Path.rmdir`. -/
def FS.rmdir (fs : FS) (p : String) : Except PyErr FS :=
  if fs.dirs.contains p then
    if (fs.listdirNames p).isEmpty then
      Except.ok { fs with dirs := fs.dirs.filter (fun q => !(q == p)) }
    else Except.error (PyErr.otherError "Directory not empty")
  else Except.error (PyErr.fileNotFound p)

/-- Path `np.save` actually writes to: numpy appends `.npy` when the
given filename does not already end with it. -/
def npySavePath (p : String) : String :=
  if strEndsWith p ".npy" then p else p ++ ".npy"

/-- Model of `np.save(p, a)`. -/
def np_save (fs : FS) (p : String) (a : NpArr) : FS :=
  fs.writeFile (npySavePath p) (FileData.npy a)

/-- Model of `np.load(p)` (with or without `mmap_mode`): reading a file
in npy format yields its stored array, shape and dtype preserved. -/
def np_load (fs : FS) (p : String) : Except PyErr NpArr :=
  match fs.lookupFile p with
  | some (FileData.npy a) => Except.ok a
  | some _ => Except.error (PyErr.valueError "Failed to interpret file as a pickle")
  | none =>
    if fs.isdirStr p then Except.error (PyErr.otherError "IsADirectoryError")
    else Except.error (PyErr.fileNotFound p)

/-! ### Directory lister and format loader -/

/-- Lexicographic comparison of character lists by code point. -/
def leChars : List Char → List Char → Bool
  | [], _ => true
  | _ :: _, [] => false
  | a :: as, b :: bs =>
    if a < b then true else if b < a then false else leChars as bs

/-- Lexicographic order on strings by code point, the order Python's
`sorted` uses on strings. -/
def strLe (s t : String) : Bool :=
  leChars s.data t.data

/-- Entries of a directory in sorted order (model of
`sorted(listdir(path))`). -/
def sortedListdir (fs : FS) (p : String) : List String :=
  List.insertionSort (fun a b => strLe a b = true) (fs.listdirNames p)

/-- Model of `list_dir` in `dynemo/data/io.py`: full paths of the
directory's entries in sorted order, keeping only the extensions in
`keep_ext` when that filter is given.  (`os.listdir` fails when the
directory does not exist.) -/
def list_dir (fs : FS) (p : String) (keep_ext : Option (List String)) :
    Except PyErr (List String) :=
  if fs.isdirStr p then
    match keep_ext with
    | none => Except.ok ((sortedListdir fs p).map (fun f => p ++ "/" ++ f))
    | some exts =>
      Except.ok (((sortedListdir fs p).filter
        (fun f => exts.contains (file_ext f))).map (fun f => p ++ "/" ++ f))
  else Except.error (PyErr.fileNotFound p)

/-- One input to `load_data`: an in-memory array or a path string. -/
inductive DataInput where
  | arr (a : NpArr)
  | strPath (p : String)
  deriving DecidableEq, Repr

/-- Final step of `load_data` when a memory-map location is in play:
`np.load(mmap_location, mmap_mode=mmap_mode)`. -/
def finalLoad (fs : FS) (loc : String) : Except PyErr (NpArr × FS) :=
  match np_load fs loc with
  | Except.error e => Except.error e
  | Except.ok a => Except.ok (a, fs)

/-- Body of `load_data` for a string path (also reached by the in-memory
branch after it persists the array and replaces `data` with
`mmap_location`): existence check, extension check, then per-extension
handling.  A `.mat` path is decoded and cast to `float32`, persisted
when a backing location is given; a `.npy` path is cast to `float32`
only when no backing location is given — otherwise the original file
itself is opened as the memory map. -/
def loadDataStr (fs : FS) (p : String) (field : String)
    (mmap_location : Option String) : Except PyErr (NpArr × FS) :=
  if !(fs.existsPath p) then Except.error (PyErr.fileNotFound p)
  else if !([".npy", ".mat"].contains (file_ext p)) then
    Except.error (PyErr.valueError "Data file must be .npy or .mat.")
  else if file_ext p = ".mat" then
    match fs.lookupFile p with
    | some (FileData.mat m) =>
      match load_matlab m field with
      | Except.error e => Except.error e
      | Except.ok d =>
        let d := d.astypeF32
        match mmap_location with
        | none => Except.ok (d, fs)
        | some loc => finalLoad (np_save fs loc d) loc
    | _ => Except.error (PyErr.valueError "Unknown mat file type")
  else
    match mmap_location with
    | none =>
      match np_load fs p with
      | Except.error e => Except.error e
      | Except.ok a => Except.ok (a.astypeF32, fs)
    | some _ => finalLoad fs p

/-- Model of `load_data` in `dynemo/data/io.py`.  An in-memory array is
cast to `float32` and either returned directly (no backing location) or
persisted with `np.save` and re-read through the string-path branch.
The `mmap_mode` parameter of the source only selects the access mode of
the returned map and cannot affect shape or dtype; it is omitted. -/
def load_data (fs : FS) (data : DataInput) (field : String)
    (mmap_location : Option String) : Except PyErr (NpArr × FS) :=
  match data with
  | DataInput.arr a =>
    let a := a.astypeF32
    match mmap_location with
    | none => Except.ok (a, fs)
    | some loc => loadDataStr (np_save fs loc a) loc field mmap_location
  | DataInput.strPath p => loadDataStr fs p field mmap_location

/-! ### The `IO` data-store class

The `IO` class is modelled as a state record plus explicit functions for
its constructor and methods, threading the filesystem.  The
`sampling_frequency` attribute (a floating-point scalar that is only
stored, never used by any modelled operation) is omitted. -/

/-- One element of a list passed as `inputs`. -/
inductive ListElem where
  | s (p : String)
  | a (arr : NpArr)
  deriving DecidableEq, Repr

/-- The `inputs` argument of the `IO` constructor: an in-memory array, a
single string, or a list. -/
inductive InputsArg where
  | nd (a : NpArr)
  | str (p : String)
  | list (xs : List ListElem)
  deriving DecidableEq, Repr

/-- Resolution step of `IO.__init__`: turn the `inputs` argument into
the subject input list.  A 2-D in-memory array is a single subject; a
higher-rank one contributes one subject per leading index (iterating a
numpy array walks its first axis; for a 1-D array the items are 0-d and
are modelled as empty-shape arrays); a string is either a directory
(expanded through `list_dir` with the two recognized extensions) or a
single file; a list whose first element is a string is walked
element-wise with the same directory expansion, and `os.path.isdir` on a
non-string element returns `False` (CPython converts buffer objects to
byte paths whose `stat` failure is caught), so such an element is
appended as is; a list with a non-string first element is taken as is. -/
def resolveInputs (fs : FS) (inputs : InputsArg) : Except PyErr (List DataInput) :=
  match inputs with
  | InputsArg.str p =>
    if fs.isdirStr p then
      match list_dir fs p (some [".npy", ".mat"]) with
      | Except.error e => Except.error e
      | Except.ok l => Except.ok (l.map DataInput.strPath)
    else Except.ok [DataInput.strPath p]
  | InputsArg.nd a =>
    if a.shape.length = 2 then Except.ok [DataInput.arr a]
    else
      match a.shape with
      | [] => Except.error (PyErr.typeError "iteration over a 0-d array")
      | d :: rest => Except.ok (List.replicate d (DataInput.arr ⟨rest, a.dtype⟩))
  | InputsArg.list [] => Except.error (PyErr.valueError "Empty list passed.")
  | InputsArg.list (x :: xs) =>
    match x with
    | ListElem.s _ =>
      (x :: xs).foldlM
        (fun (acc : List DataInput) e =>
          match e with
          | ListElem.s p =>
            if fs.isdirStr p then
              match list_dir fs p (some [".npy", ".mat"]) with
              | Except.error er => Except.error er
              | Except.ok l => Except.ok (acc ++ l.map DataInput.strPath)
            else Except.ok (acc ++ [DataInput.strPath p])
          | ListElem.a arr => Except.ok (acc ++ [DataInput.arr arr])) []
    | ListElem.a _ =>
      Except.ok ((x :: xs).map (fun e =>
        match e with
        | ListElem.s p => DataInput.strPath p
        | ListElem.a arr => DataInput.arr arr))

/-- State of an `IO` object after construction. -/
structure IOState where
  inputs : List DataInput
  store_dir : String
  keep_memmaps_on_close : Bool
  raw_data_memmaps : Option (List NpArr)
  raw_data_filenames : Option (List String)
  n_embeddings : Option Nat
  pca_components : Option NpArr
  n_pca_components : Option Nat
  prepared : Bool
  n_raw_data_channels : Nat
  subjects : List NpArr
  deriving DecidableEq, Repr

/-- Modelled from the spec: the subject-count attribute used by `save`
(`self.n_subjects`) is provided by a subclass that is not under `src/`;
per the spec the store registers its subject count after validation, and
it is the length of the subject list. -/
def IOState.n_subjects (st : IOState) : Nat :=
  st.subjects.length

/-- Backing filenames used by `load_raw_data`: a zero-padded index whose
width is the digit count of the input-list length, plus the per-store
identifier.  (The identifier, `self._identifier`, is assigned outside
the `IO` class; it is a parameter here.) -/
def raw_data_filenames (store_dir identifier : String) (n : Nat) : List String :=
  (List.range n).map (fun i =>
    store_dir ++ "/raw_data_" ++ zeroPad (toString n).length i ++ "_" ++
      identifier ++ ".npy")

/-- Model of `IO.load_raw_data`: load every resolved input through
`load_data` with its backing location, transposing when the time axis is
not first, and return the arrays together with the backing names. -/
def load_raw_data (fs : FS) (inputs : List DataInput)
    (store_dir identifier field : String) (time_axis_first : Bool) :
    Except PyErr (List NpArr × List String × FS) :=
  let files := raw_data_filenames store_dir identifier inputs.length
  match (inputs.zip files).foldlM
      (fun (acc : List NpArr × FS) pr =>
        match load_data acc.2 pr.1 field (some pr.2) with
        | Except.error e => Except.error e
        | Except.ok (d, fs2) =>
          Except.ok (acc.1 ++ [if time_axis_first then d else d.transpose], fs2))
      ([], fs) with
  | Except.error e => Except.error e
  | Except.ok (ms, fs2) => Except.ok (ms, files, fs2)

/-- Model of `IO.validate_data`: collect every subject's trailing
dimension and fail unless they all equal the first one.  The error
message is fixed text; it does not mention the channel counts. -/
def validate_data (memmaps : List NpArr) : Except PyErr Unit :=
  match memmaps.map shapeLast with
  | [] => Except.error (PyErr.otherError "IndexError: list index out of range")
  | c :: rest =>
    if (c :: rest).all (fun x => x == c) then Except.ok ()
    else Except.error (PyErr.valueError "All inputs should have the same number of channels.")

/-- Preparation attributes set by `load_preparation`. -/
structure PrepInfo where
  n_embeddings : Option Nat
  pca_components : Option NpArr
  n_pca_components : Option Nat
  prepared : Bool
  deriving DecidableEq, Repr

/-- Attributes of a store on which `load_preparation` found nothing.
The `prepared = false` default is modelled from the spec: the attribute
is only assigned in `load_preparation` in the source under `src/`, and
per the spec a store starts in the raw state. -/
def emptyPrep : PrepInfo :=
  ⟨none, none, none, false⟩

/-- Model of `IO.load_preparation`: when the original `inputs` argument
is a directory path, list it (unfiltered) and, if any full path contains
the substring `preparation.pkl`, deserialize that fixed filename and
derive the reduced channel count from the component matrix's second
dimension (`pca_components.shape[1]`).  `os.path.isdir` on an in-memory
array returns `False` in the CPython versions the source targets, so a
non-string argument is a no-op. -/
def load_preparation (fs : FS) (inputs : InputsArg) : Except PyErr PrepInfo :=
  match inputs with
  | InputsArg.str p =>
    if fs.isdirStr p then
      match list_dir fs p none with
      | Except.error e => Except.error e
      | Except.ok files =>
        if files.any (fun f => containsSubstr f "preparation.pkl") then
          match fs.lookupFile (p ++ "/preparation.pkl") with
          | some (FileData.pickle ne pc) =>
            match pc.shape.get? 1 with
            | some k => Except.ok ⟨some ne, some pc, some k, true⟩
            | none => Except.error (PyErr.otherError "IndexError: tuple index out of range")
          | some _ => Except.error (PyErr.otherError "UnpicklingError")
          | none => Except.error (PyErr.fileNotFound (p ++ "/preparation.pkl"))
        else Except.ok emptyPrep
    else Except.ok emptyPrep
  | _ => Except.ok emptyPrep

/-- Model of `IO.__init__`: resolve the inputs, reject an empty
resolution, create the store directory, load and validate the raw data,
and (for non-list inputs) attach any preparation record found. -/
def io_init (fs : FS) (inputs : InputsArg) (data_field : String)
    (store_dir identifier : String) (time_axis_first : Bool)
    (keep_memmaps_on_close : Bool) : Except PyErr (IOState × FS) :=
  match resolveInputs fs inputs with
  | Except.error e => Except.error e
  | Except.ok resolved =>
    if resolved.isEmpty then Except.error (PyErr.valueError "No valid inputs were passed.")
    else
      let fs1 := fs.mkdir store_dir
      match load_raw_data fs1 resolved store_dir identifier data_field time_axis_first with
      | Except.error e => Except.error e
      | Except.ok (memmaps, files, fs2) =>
        match validate_data memmaps with
        | Except.error e => Except.error e
        | Except.ok _ =>
          match (match inputs with
                 | InputsArg.list _ => Except.ok emptyPrep
                 | _ => load_preparation fs2 inputs) with
          | Except.error e => Except.error e
          | Except.ok prep =>
            Except.ok
              ({ inputs := resolved
                 store_dir := store_dir
                 keep_memmaps_on_close := keep_memmaps_on_close
                 raw_data_memmaps := some memmaps
                 raw_data_filenames := some files
                 n_embeddings := prep.n_embeddings
                 pca_components := prep.pca_components
                 n_pca_components := prep.n_pca_components
                 prepared := prep.prepared
                 n_raw_data_channels := shapeLast (memmaps.headD ⟨[], DType.float32⟩)
                 subjects := memmaps }, fs2)

/-- Path of the array file `save` writes for subject `i`. -/
def subjectPath (output_dir : String) (i : Nat) : String :=
  output_dir ++ "/subject" ++ toString i ++ ".npy"

/-- Path of the preparation record `save` writes. -/
def prepPath (output_dir : String) : String :=
  output_dir ++ "/preparation.pkl"

/-- Model of `IO.save`: create the output directory, write one array
file per subject, and, when the store is prepared, also serialize the
preparation record there.  The second component is the list of paths
written, in write order. -/
def io_save (st : IOState) (fs : FS) (output_dir : String) : FS × List String :=
  let fs1 := fs.mkdir output_dir
  let step := (List.range st.n_subjects).foldl
    (fun (acc : FS × List String) i =>
      (np_save acc.1 (subjectPath output_dir i) (st.subjects.getD i ⟨[], DType.float32⟩),
        acc.2 ++ [subjectPath output_dir i])) (fs1, [])
  if st.prepared then
    (step.1.writeFile (prepPath output_dir)
        (FileData.pickle (st.n_embeddings.getD 0) (st.pca_components.getD ⟨[], DType.float32⟩)),
      step.2 ++ [prepPath output_dir])
  else step

/-- Result of a teardown call: the updated object state and filesystem,
and the trace of `unlink` calls the run performed. -/
structure TeardownOut where
  st : IOState
  fs : FS
  unlink_calls : List String
  deriving DecidableEq, Repr

/-- Loop of `delete_io_memmaps` over the backing filenames: unlink each
one with `missing_ok=True`, collecting the trace of unlink calls. -/
def unlinkLoop (fs : FS) (trace : List String) : List String → Except PyErr (FS × List String)
  | [] => Except.ok (fs, trace)
  | f :: rest =>
    match fs.unlink f true with
    | Except.error e => Except.error e
    | Except.ok fs2 => unlinkLoop fs2 (trace ++ [f]) rest

/-- Delete the listed backing files, tolerating missing ones
(`unlink(missing_ok=True)`), collecting the trace of unlink calls. -/
def unlinkAll (fs : FS) (files : List String) : Except PyErr (FS × List String) :=
  unlinkLoop fs [] files

/-- Model of `IO.delete_io_memmaps`: unlink every owned backing file
when the filename list is still present, remove the store directory when
it exists and is empty (`pathlib.exists` is also true for a plain file
at that path, on which `iterdir` would fail), and clear the in-memory
references. -/
def delete_io_memmaps (st : IOState) (fs : FS) : Except PyErr TeardownOut :=
  match (match st.raw_data_filenames with
         | none => Except.ok (fs, [])
         | some files => unlinkAll fs files) with
  | Except.error e => Except.error e
  | Except.ok (fs2, calls) =>
    match (if fs2.existsPath st.store_dir then
             if !(fs2.isdirStr st.store_dir) then
               Except.error (PyErr.otherError "NotADirectoryError")
             else if (fs2.listdirNames st.store_dir).isEmpty then fs2.rmdir st.store_dir
             else Except.ok fs2
           else Except.ok fs2) with
    | Except.error e => Except.error e
    | Except.ok fs3 =>
      Except.ok ⟨{ st with raw_data_memmaps := none, raw_data_filenames := none }, fs3, calls⟩

/-! ### The bounded-view `Data` object (`vrad/data/_base.py`)

Only the view machinery is modelled: `data_limits`, `__getitem__` and
the `shape` property.  A 2-D array is a column count plus a list of
rows, parametric in the element type (the source holds floats; no
modelled operation computes with the values).  The `t` axis array and
`sampling_frequency` (floating-point data derived at construction and
not touched by these operations) are omitted from the record. -/

/-- A 2-D array: a fixed column count and a list of rows. -/
structure Arr2 (α : Type) where
  cols : Nat
  rows : List (List α)
  deriving DecidableEq, Repr

/-- Clamp a Python slice bound to an index of a length-`n` sequence:
negative values count from the end. -/
def pyBound (n : Nat) (i : Int) : Nat :=
  if i < 0 then ((n : Int) + i).toNat else min i.toNat n

/-- Model of the Python slice `xs[lo:hi]` (`None` bounds select the ends). -/
def pySlice {α : Type} (xs : List α) (lo hi : Option Int) : List α :=
  let s := match lo with
    | none => 0
    | some i => pyBound xs.length i
  let e := match hi with
    | none => xs.length
    | some i => pyBound xs.length i
  (xs.drop s).take (e - s)

/-- Row-slice of a 2-D array; the column count is untouched. -/
def Arr2.sliceRows {α : Type} (a : Arr2 α) (lo hi : Option Int) : Arr2 α :=
  ⟨a.cols, pySlice a.rows lo hi⟩

/-- Shape of a 2-D array, as numpy reports it. -/
def Arr2.shape {α : Type} (a : Arr2 α) : List Nat :=
  [a.rows.length, a.cols]

/-- An indexing argument: a single (possibly negative) row index, or a
row slice. -/
inductive PyIndex where
  | idx (i : Int)
  | slice (lo hi : Option Int)
  deriving DecidableEq, Repr

/-- Result of indexing a 2-D array: one row, or a 2-D sub-array. -/
inductive ItemRes (α : Type) where
  | row (r : List α)
  | mat (a : Arr2 α)
  deriving DecidableEq, Repr

/-- Apply a Python indexing operation to a 2-D array; a single index out
of range is an `IndexError`. -/
def pyGetIndex {α : Type} (a : Arr2 α) : PyIndex → Except PyErr (ItemRes α)
  | PyIndex.idx i =>
    let j : Int := if i < 0 then (a.rows.length : Int) + i else i
    if 0 ≤ j ∧ j < a.rows.length then
      match a.rows.get? j.toNat with
      | some r => Except.ok (ItemRes.row r)
      | none => Except.error (PyErr.otherError "IndexError")
    else Except.error (PyErr.otherError "IndexError")
  | PyIndex.slice lo hi => Except.ok (ItemRes.mat (a.sliceRows lo hi))

/-- State of a `vrad` `Data` object. -/
structure DataObj (α : Type) where
  from_file : Option String
  time_series : Arr2 α
  raw_data : Arr2 α
  pca_applied : Bool
  n_min : Option Int
  n_max : Option Int
  deriving DecidableEq, Repr

/-- Model of `Data.data_limits`: record the two view bounds.  The
underlying arrays are untouched. -/
def DataObj.data_limits {α : Type} (d : DataObj α) (t_min t_max : Option Int) : DataObj α :=
  { d with n_min := t_min, n_max := t_max }

/-- Model of `Data.__getitem__`: index into
`time_series[n_min:n_max]`. -/
def DataObj.getItem {α : Type} (d : DataObj α) (val : PyIndex) : Except PyErr (ItemRes α) :=
  pyGetIndex (d.time_series.sliceRows d.n_min d.n_max) val

/-- Model of the `Data.shape` property: the shape of `self[:]`, the
bounded view. -/
def DataObj.shape {α : Type} (d : DataObj α) : List Nat :=
  (d.time_series.sliceRows d.n_min d.n_max).shape

/-- Decimal decoding of a digit string with accumulator `a`; inverse of
`Nat.repr`, used to prove the decimal representation injective. -/
def decodeDec (a : Nat) (cs : List Char) : Nat :=
  cs.foldl (fun acc c => acc * 10 + (c.toNat - 48)) a

/-- Store state used to exercise the preparation round trip: prepared,
with embedding width `n_emb` and a reduction-component matrix of shape
(80, `c`), holding one subject. -/
def prepStore (n_emb c : Nat) : IOState :=
  { inputs := []
    store_dir := "/st"
    keep_memmaps_on_close := false
    raw_data_memmaps := none
    raw_data_filenames := none
    n_embeddings := some n_emb
    pca_components := some ⟨[80, c], DType.float32⟩
    n_pca_components := some 80
    prepared := true
    n_raw_data_channels := 80
    subjects := [⟨[50, 80], DType.float32⟩] }

/-- Concrete store used to witness the teardown theorem: two owned
backing files, one of which is already missing. -/
def c6State : IOState :=
  { inputs := []
    store_dir := "/st"
    keep_memmaps_on_close := false
    raw_data_memmaps := some [⟨[4, 2], DType.float32⟩]
    raw_data_filenames := some ["/st/raw_data_0_i.npy", "/st/raw_data_1_i.npy"]
    n_embeddings := none
    pca_components := none
    n_pca_components := none
    prepared := false
    n_raw_data_channels := 2
    subjects := [⟨[4, 2], DType.float32⟩] }

/-- Concrete filesystem used to witness the teardown theorem: the store
directory holds the first backing file only. -/
def c6FS : FS :=
  ⟨[("/st/raw_data_0_i.npy", FileData.npy ⟨[4, 2], DType.float32⟩)], ["/st"]⟩

/-! ### Helper lemmas -/

theorem strData_append (s t : String) : (s ++ t).data = s.data ++ t.data := by
  cases s
  cases t
  rfl

theorem strExt {s t : String} (h : s.data = t.data) : s = t := by
  cases s
  cases t
  exact congrArg String.mk h

theorem lookupFile_writeFile_self (fs : FS) (p : String) (d : FileData) :
    (fs.writeFile p d).lookupFile p = some d := by
  simp [FS.writeFile, FS.lookupFile, List.find?]

theorem npySavePath_of_endsWith {l : String} (h : strEndsWith l ".npy" = true) :
    npySavePath l = l := by
  simp [npySavePath, h]

/-! ### Claim C10 -/

/-- Claim C10: `data_limits` modifies only the two view-bound fields;
`time_series` and `raw_data` are unchanged, every subsequent indexing
operation indexes into `time_series[n_min:n_max]`, and the reported
shape is the bounded view's shape. -/
theorem claim10_data_limits_frame {α : Type} (d : DataObj α) (t_min t_max : Option Int) :
    (d.data_limits t_min t_max).time_series = d.time_series ∧
    (d.data_limits t_min t_max).raw_data = d.raw_data ∧
    (d.data_limits t_min t_max).from_file = d.from_file ∧
    (d.data_limits t_min t_max).pca_applied = d.pca_applied ∧
    (d.data_limits t_min t_max).n_min = t_min ∧
    (d.data_limits t_min t_max).n_max = t_max ∧
    (∀ val, (d.data_limits t_min t_max).getItem val =
      pyGetIndex (d.time_series.sliceRows t_min t_max) val) ∧
    (d.data_limits t_min t_max).shape = (d.time_series.sliceRows t_min t_max).shape :=
  ⟨rfl, rfl, rfl, rfl, rfl, rfl, fun _ => rfl, rfl⟩

/-! ### Claim C1 -/

/-- Claim C1 (amended): validation of a non-empty subject list fails
exactly when some subject's trailing dimension differs from the first
subject's, and the error it fails with is the fixed message
`All inputs should have the same number of channels.`, which does not
list the offending channel counts; otherwise validation succeeds. -/
theorem claim1_validate_channel_mismatch (m : NpArr) (ms : List NpArr) :
    validate_data (m :: ms) =
      (if ms.all (fun x => shapeLast x == shapeLast m) then Except.ok ()
       else Except.error (PyErr.valueError "All inputs should have the same number of channels.")) := by
  simp [validate_data, List.all_map, Function.comp_def]

/-- Claim C1 counterexample: on subjects with channel counts 64 and 32
validation fails, but the message mentions neither count, so it does not
identify the offending channel counts as the claim states. -/
theorem claim1_counterexample :
    validate_data [⟨[100, 64], DType.float32⟩, ⟨[100, 32], DType.float32⟩] =
      Except.error (PyErr.valueError "All inputs should have the same number of channels.") ∧
    containsSubstr "All inputs should have the same number of channels." "64" = false ∧
    containsSubstr "All inputs should have the same number of channels." "32" = false :=
  ⟨rfl, rfl, rfl⟩

/-! ### Claim C9 -/

/-- Claim C9 (amended): an existing path whose extension is neither
`.npy` nor `.mat` makes the format loader fail with the fixed error
message `Data file must be .npy or .mat.`; the message does not name the
offending extension. -/
theorem claim9_unsupported_extension (fs : FS) (p field : String) (loc : Option String)
    (hex : fs.existsPath p = true)
    (hext : ([".npy", ".mat"].contains (file_ext p)) = false) :
    load_data fs (DataInput.strPath p) field loc =
      Except.error (PyErr.valueError "Data file must be .npy or .mat.") := by
  simp only [load_data, loadDataStr, hex, hext, Bool.not_true, Bool.not_false,
    if_true, if_false, Bool.false_eq_true, ite_true, ite_false]

/-- Claim C9 witness: the amended theorem applied to a `.txt` file. -/
theorem claim9_witness :
    (⟨[("data.txt", FileData.other)], []⟩ : FS).existsPath "data.txt" = true ∧
    ([".npy", ".mat"].contains (file_ext "data.txt")) = false ∧
    load_data ⟨[("data.txt", FileData.other)], []⟩ (DataInput.strPath "data.txt") "X" none =
      Except.error (PyErr.valueError "Data file must be .npy or .mat.") :=
  ⟨rfl, rfl, claim9_unsupported_extension _ _ _ _ rfl rfl⟩

/-- Claim C9 counterexample: the error raised on a `.txt` file is the
fixed message, and the offending extension does not occur in it, so the
error does not name the extension as the claim states. -/
theorem claim9_counterexample :
    load_data ⟨[("data.txt", FileData.other)], []⟩ (DataInput.strPath "data.txt") "X"
        (some "loc.npy") =
      Except.error (PyErr.valueError "Data file must be .npy or .mat.") ∧
    containsSubstr "Data file must be .npy or .mat." ".txt" = false :=
  ⟨rfl, rfl⟩

/-! ### Claim C2 -/

/-- Claim C2 counterexample: a `.npy` path ingested with a backing path
loads successfully but keeps the file's stored `float64` element type —
the original file itself is memory-mapped, with no cast. -/
theorem claim2_counterexample :
    load_data ⟨[("a.npy", FileData.npy ⟨[100, 3], DType.float64⟩)], []⟩
        (DataInput.strPath "a.npy") "X" (some "loc.npy") =
      Except.ok (⟨[100, 3], DType.float64⟩,
        ⟨[("a.npy", FileData.npy ⟨[100, 3], DType.float64⟩)], []⟩) ∧
    DType.float64 ≠ DType.float32 :=
  ⟨rfl, by decide⟩

/-! ### Claim C7 -/

/-- Claim C7: opening a store with an in-memory 3-D array of shape
(5, 1000, 10) succeeds and yields 5 subjects, each of shape (1000, 10);
in general a higher-rank in-memory array resolves to one subject per
leading index. -/
theorem claim7_inmemory_3d :
    ((io_init ⟨[], []⟩ (InputsArg.nd ⟨[5, 1000, 10], DType.float64⟩) "X" "/tmp/store" "id"
        true false).map
      (fun r => (r.1.subjects.map NpArr.shape, r.1.n_raw_data_channels)) =
      Except.ok (List.replicate 5 [1000, 10], 10)) ∧
    (∀ (fs : FS) (a b c : Nat) (rest : List Nat) (dt : DType),
      resolveInputs fs (InputsArg.nd ⟨a :: b :: c :: rest, dt⟩) =
        Except.ok (List.replicate a (DataInput.arr ⟨b :: c :: rest, dt⟩))) := by
  constructor
  · rfl
  · intro fs a b c rest dt
    simp only [resolveInputs, List.length_cons]
    rw [if_neg (by omega)]

/-! ### Claim C3 -/

/-- Claim C3 (amended): saving a Preparation Record with embedding width
`n_emb` and a reduction-component matrix of shape (80, `c`) and
re-opening the store restores the record with derived reduced-channel
count equal to `c` — the component matrix's second dimension — so it is
80 exactly when `c` is 80. -/
theorem claim3_roundtrip (n_emb c : Nat) :
    ((io_init (io_save (prepStore n_emb c) ⟨[], []⟩ "/out").1 (InputsArg.str "/out") "X"
        "/st2" "id2" true false).map
      (fun r => (r.1.n_embeddings, r.1.pca_components, r.1.n_pca_components, r.1.prepared))) =
      Except.ok (some n_emb, some ⟨[80, c], DType.float32⟩, some c, true) := by
  rfl

/-- Claim C3 counterexample: with a component matrix of shape (80, 64)
(so 64 original channels), the restored derived reduced-channel count is
64, not 80. -/
theorem claim3_counterexample :
    ((io_init (io_save (prepStore 13 64) ⟨[], []⟩ "/out").1 (InputsArg.str "/out") "X"
        "/st2" "id2" true false).map
      (fun r => (r.1.n_embeddings, r.1.n_pca_components))) =
      Except.ok (some 13, some 64) ∧ (64 : Nat) ≠ 80 :=
  ⟨rfl, by decide⟩

/-! ### Claim C5 -/

/-- Claim C5: the first decoder (`scipy.io.loadmat`, the one the spec
designates as primary) is always attempted first; the fallback decoder
(`mat73.loadmat`) is attempted exactly when the first decoder raised its
format-not-supported signal, and at most once; any other failure of the
first decoder propagates with no fallback; and a missing requested field
is fatal (`KeyError` naming the field) with no fallback. -/
theorem claim5_mat_fallback :
    (∀ f : MatFile, (loadmatAttempts f).head? = some Decoder.scipy) ∧
    (∀ f : MatFile,
      Decoder.mat73 ∈ loadmatAttempts f ↔ f.scipyResult = ScipyOutcome.notSupported) ∧
    (∀ f : MatFile, (loadmatAttempts f).count Decoder.mat73 ≤ 1) ∧
    (∀ (f : MatFile) (rd : Bool) (e : PyErr),
      f.scipyResult = ScipyOutcome.fails e →
      loadmat f rd = Except.error e ∧ loadmatAttempts f = [Decoder.scipy]) ∧
    (∀ (f : MatFile) (field : String) (d : List (String × NpArr)),
      f.scipyResult = ScipyOutcome.ok d →
      (d.map Prod.fst).contains "D" = false →
      d.find? (fun kv => kv.1 == field) = none →
      load_matlab f field = Except.error (PyErr.keyError (missingFieldMsg field)) ∧
        loadmatAttempts f = [Decoder.scipy]) := by
  refine ⟨fun f => ?_, fun f => ?_, fun f => ?_, fun f rd e he => ?_, fun f field d hd hD hf => ?_⟩
  · cases h : f.scipyResult <;> simp [loadmatAttempts, h]
  · cases h : f.scipyResult <;> simp [loadmatAttempts, h]
  · cases h : f.scipyResult <;> simp [loadmatAttempts, h]
  · exact ⟨by simp [loadmat, loadmatDecode, he], by simp [loadmatAttempts, he]⟩
  · refine ⟨?_, by simp [loadmatAttempts, hd]⟩
    simp only [load_matlab, loadmat, loadmatDecode, hd, if_true, hD, Bool.false_eq_true,
      if_false, hf, ite_true, ite_false]

/-- Claim C5 witness: the fallback behaviour at concrete files — a
non-format failure of the first decoder propagates unchanged with no
fallback attempted, and a decodable file lacking the requested field is
a fatal `KeyError` with the first decoder as the only attempt. -/
theorem claim5_witness :
    (loadmat ⟨ScipyOutcome.fails (PyErr.valueError "corrupt header"), Except.ok [],
        ⟨[], DType.float32⟩⟩ true =
      Except.error (PyErr.valueError "corrupt header") ∧
      loadmatAttempts ⟨ScipyOutcome.fails (PyErr.valueError "corrupt header"), Except.ok [],
        ⟨[], DType.float32⟩⟩ = [Decoder.scipy]) ∧
    (load_matlab ⟨ScipyOutcome.ok [("Y", ⟨[4, 2], DType.float64⟩)], Except.ok [],
        ⟨[], DType.float32⟩⟩ "X" =
      Except.error (PyErr.keyError (missingFieldMsg "X")) ∧
      loadmatAttempts ⟨ScipyOutcome.ok [("Y", ⟨[4, 2], DType.float64⟩)], Except.ok [],
        ⟨[], DType.float32⟩⟩ = [Decoder.scipy]) :=
  ⟨claim5_mat_fallback.2.2.2.1 _ true (PyErr.valueError "corrupt header") rfl,
    claim5_mat_fallback.2.2.2.2 _ "X" [("Y", ⟨[4, 2], DType.float64⟩)] rfl rfl rfl⟩

/-! ### Claim C2 amended theorem -/

/-- A successful `np_load` means the path held a file in npy format
with exactly the returned array. -/
theorem np_load_ok {fs : FS} {p : String} {a : NpArr}
    (h : np_load fs p = Except.ok a) :
    fs.lookupFile p = some (FileData.npy a) := by
  unfold np_load at h
  cases hlk : fs.lookupFile p with
  | none =>
    rw [hlk] at h
    cases hb : fs.isdirStr p <;> rw [hb] at h <;> simp at h
  | some c => rw [hlk] at h; cases c <;> simp_all

/-- Output dtype of the string-path branch of `load_data`: every
successful load yields `float32` except a `.npy` path loaded with a
backing location, which memory-maps the original file and keeps its
stored dtype. -/
theorem loadDataStr_dtype (fs : FS) (p field : String) (loc : Option String) (r : NpArr)
    (fs' : FS) (hloc : ∀ l, loc = some l → strEndsWith l ".npy" = true)
    (h : loadDataStr fs p field loc = Except.ok (r, fs')) :
    r.dtype = DType.float32 ∨
    (file_ext p = ".npy" ∧ loc.isSome = true ∧
      ∃ a, fs.lookupFile p = some (FileData.npy a) ∧ r = a) := by
  unfold loadDataStr at h
  cases hex : fs.existsPath p with
  | false => rw [hex] at h; simp at h
  | true =>
  rw [hex] at h
  simp only [Bool.not_true, Bool.false_eq_true, if_false, ite_false] at h
  cases hcont : ([".npy", ".mat"].contains (file_ext p)) with
  | false => rw [hcont] at h; simp at h
  | true =>
  rw [hcont] at h
  simp only [Bool.not_true, Bool.false_eq_true, if_false, ite_false] at h
  by_cases hmat : file_ext p = ".mat"
  · rw [if_pos hmat] at h
    cases hlk : fs.lookupFile p with
    | none => rw [hlk] at h; simp at h
    | some c =>
      rw [hlk] at h
      cases c with
      | mat m =>
        cases hlm : load_matlab m field with
        | error e =>
          simp only [hlm] at h
          exact Except.noConfusion h
        | ok dval =>
          simp only [hlm] at h
          cases loc with
          | none =>
            simp only [Except.ok.injEq, Prod.mk.injEq] at h
            exact Or.inl (h.1 ▸ rfl)
          | some l =>
            have hl : npySavePath l = l := npySavePath_of_endsWith (hloc l rfl)
            simp only [finalLoad, np_save, hl, np_load,
              lookupFile_writeFile_self, Except.ok.injEq, Prod.mk.injEq] at h
            exact Or.inl (h.1 ▸ rfl)
      | npy a => simp at h
      | pickle n pc => simp at h
      | foreignPickle => simp at h
      | other => simp at h
  · rw [if_neg hmat] at h
    have hnpy : file_ext p = ".npy" := by
      simp only [List.contains_cons, List.contains_nil, Bool.or_eq_true, beq_iff_eq,
        Bool.or_false] at hcont
      tauto
    cases loc with
    | none =>
      cases hnp : np_load fs p with
      | error e => rw [hnp] at h; simp at h
      | ok a =>
        rw [hnp] at h
        simp only [Except.ok.injEq, Prod.mk.injEq] at h
        exact Or.inl (h.1 ▸ rfl)
    | some l =>
      refine Or.inr ⟨hnpy, rfl, ?_⟩
      simp only [finalLoad] at h
      cases hnp : np_load fs p with
      | error e => rw [hnp] at h; simp at h
      | ok a =>
        rw [hnp] at h
        simp only [Except.ok.injEq, Prod.mk.injEq] at h
        exact ⟨a, np_load_ok hnp, h.1.symm⟩

/-- Claim C2 (amended): every input successfully ingested through the
Format Loader with either no backing path or a backing path ending in
`.npy` (as the store's backing paths always do) yields a `float32`
array, except a `.npy` file path ingested with a backing path: that
file is memory-mapped directly, and the result keeps the file's stored
element type. -/
theorem claim2_float32 (fs : FS) (data : DataInput) (field : String)
    (loc : Option String) (r : NpArr) (fs' : FS)
    (hloc : ∀ l, loc = some l → strEndsWith l ".npy" = true)
    (h : load_data fs data field loc = Except.ok (r, fs')) :
    r.dtype = DType.float32 ∨
    ∃ p a, data = DataInput.strPath p ∧ file_ext p = ".npy" ∧ loc.isSome = true ∧
      fs.lookupFile p = some (FileData.npy a) ∧ r = a := by
  cases data with
  | arr a =>
    unfold load_data at h
    cases loc with
    | none =>
      simp only [Except.ok.injEq, Prod.mk.injEq] at h
      exact Or.inl (h.1 ▸ rfl)
    | some l =>
      have hl : npySavePath l = l := npySavePath_of_endsWith (hloc l rfl)
      rcases loadDataStr_dtype _ _ _ _ _ _ hloc h with h32 | ⟨_, _, b, hb, rb⟩
      · exact Or.inl h32
      · rw [np_save, hl, lookupFile_writeFile_self] at hb
        cases hb
        exact Or.inl (rb ▸ rfl)
  | strPath p =>
    rcases loadDataStr_dtype _ _ _ _ _ _ hloc h with h32 | ⟨hext, hsome, b, hb, rb⟩
    · exact Or.inl h32
    · exact Or.inr ⟨p, b, rfl, hext, hsome, hb, rb⟩

/-- Claim C2 witness: an in-memory `float64` array ingested without a
backing path comes out as `float32`. -/
theorem claim2_witness :
    (⟨[3, 2], DType.float32⟩ : NpArr).dtype = DType.float32 ∨
    ∃ p a, DataInput.arr ⟨[3, 2], DType.float64⟩ = DataInput.strPath p ∧
      file_ext p = ".npy" ∧ (none : Option String).isSome = true ∧
      (⟨[], []⟩ : FS).lookupFile p = some (FileData.npy a) ∧
      (⟨[3, 2], DType.float32⟩ : NpArr) = a :=
  claim2_float32 ⟨[], []⟩ (DataInput.arr ⟨[3, 2], DType.float64⟩) "X" none
    ⟨[3, 2], DType.float32⟩ ⟨[], []⟩ (fun l hl => by cases hl) rfl

/-! ### Claim C6 -/

theorem dirs_eraseFile (fs : FS) (p : String) : (eraseFile fs p).dirs = fs.dirs := rfl

theorem dirs_eraseAll (files : List String) (fs : FS) :
    (eraseAll fs files).dirs = fs.dirs := by
  induction files generalizing fs with
  | nil => rfl
  | cons f t ih => exact (ih (eraseFile fs f)).trans rfl

theorem lookupFile_eraseFile_none {fs : FS} {q : String} (h : fs.lookupFile q = none)
    (p : String) : (eraseFile fs p).lookupFile q = none := by
  simp only [FS.lookupFile, Option.map_eq_none', List.find?_eq_none] at h ⊢
  intro x hx
  exact h x (List.mem_of_mem_filter hx)

theorem lookupFile_eraseAll_none {q : String} (files : List String) {fs : FS}
    (h : fs.lookupFile q = none) : (eraseAll fs files).lookupFile q = none := by
  induction files generalizing fs with
  | nil => exact h
  | cons f t ih => exact ih (lookupFile_eraseFile_none h f)

theorem eraseFile_of_lookup_none {fs : FS} {p : String} (h : fs.lookupFile p = none) :
    eraseFile fs p = fs := by
  simp only [FS.lookupFile, Option.map_eq_none', List.find?_eq_none] at h
  cases fs with
  | mk files dirs =>
    simp only [eraseFile]
    congr 1
    refine List.filter_eq_self.mpr (fun kv hkv => ?_)
    simpa using h kv hkv

theorem unlink_missing_ok (fs : FS) (p : String) :
    fs.unlink p true = Except.ok (eraseFile fs p) := by
  unfold FS.unlink
  cases hlk : fs.lookupFile p with
  | none => rw [eraseFile_of_lookup_none hlk]; rfl
  | some c => rfl

theorem unlinkLoop_ok (files : List String) (fs : FS) (trace : List String) :
    unlinkLoop fs trace files = Except.ok (eraseAll fs files, trace ++ files) := by
  induction files generalizing fs trace with
  | nil => simp [unlinkLoop, eraseAll]
  | cons f t ih =>
    simp only [unlinkLoop, unlink_missing_ok]
    rw [ih (eraseFile fs f) (trace ++ [f])]
    simp [eraseAll, List.append_assoc]

theorem unlinkAll_ok (fs : FS) (files : List String) :
    unlinkAll fs files = Except.ok (eraseAll fs files, files) := by
  simpa [unlinkAll] using unlinkLoop_ok files fs []

theorem contains_filter_self_false (l : List String) (p : String) :
    (l.filter (fun q => !(q == p))).contains p = false := by
  induction l with
  | nil => rfl
  | cons a t ih =>
    by_cases ha : a == p
    · simp [List.filter, ha, ih]
    · have ha' : (a == p) = false := by
        cases hx : a == p
        · rfl
        · exact absurd hx ha
      simp only [List.filter, ha', Bool.not_false, List.contains_cons, ih,
        Bool.or_false, beq_eq_false_iff_ne, ne_eq]
      exact fun h => ha (by simp [h])

/-- Claim C6: teardown of owned backing files never raises and is
idempotent; the second call performs no unlink attempts.  Each call
unlinks exactly the owned backing paths (tolerating missing files),
clears the in-memory references, and — when the store directory exists —
removes it exactly when it is empty after the unlinks; a missing
directory is left alone.  (The hypothesis rules out a plain file sitting
at the directory path, on which Python's `iterdir` would fail.) -/
theorem claim6_teardown_idempotent (st : IOState) (fs : FS)
    (hfile : fs.lookupFile st.store_dir = none) :
    ∃ out : TeardownOut,
      delete_io_memmaps st fs = Except.ok out ∧
      delete_io_memmaps out.st out.fs = Except.ok ⟨out.st, out.fs, []⟩ ∧
      out.unlink_calls = st.raw_data_filenames.getD [] ∧
      out.st = { st with raw_data_memmaps := none, raw_data_filenames := none } ∧
      (fs.dirs.contains st.store_dir = true →
        (out.fs.dirs.contains st.store_dir = false ↔
          ((eraseAll fs (st.raw_data_filenames.getD [])).listdirNames
            st.store_dir).isEmpty = true)) ∧
      (fs.dirs.contains st.store_dir = false → out.fs.dirs = fs.dirs) := by
  have hstep : (match st.raw_data_filenames with
      | none => Except.ok (fs, [])
      | some files => unlinkAll fs files) =
      Except.ok (eraseAll fs (st.raw_data_filenames.getD []),
        st.raw_data_filenames.getD []) := by
    cases st.raw_data_filenames with
    | none => simp [eraseAll]
    | some files => simp [unlinkAll_ok]
  have hlook : (eraseAll fs (st.raw_data_filenames.getD [])).lookupFile st.store_dir =
      none := lookupFile_eraseAll_none _ hfile
  have hdirs : (eraseAll fs (st.raw_data_filenames.getD [])).dirs = fs.dirs :=
    dirs_eraseAll _ _
  have hex : (eraseAll fs (st.raw_data_filenames.getD [])).existsPath st.store_dir =
      fs.dirs.contains st.store_dir := by
    simp [FS.existsPath, FS.isdirStr, hlook, hdirs]
  by_cases hb : fs.dirs.contains st.store_dir = true
  · by_cases hempty : ((eraseAll fs (st.raw_data_filenames.getD [])).listdirNames
        st.store_dir).isEmpty = true
    · -- directory exists and is empty after the unlinks: it is removed
      have hlook2 : (⟨(eraseAll fs (st.raw_data_filenames.getD [])).files,
          fs.dirs.filter (fun q => !(q == st.store_dir))⟩ : FS).lookupFile
            st.store_dir = none := hlook
      have hdel : delete_io_memmaps st fs = Except.ok
          ⟨{ st with raw_data_memmaps := none, raw_data_filenames := none },
            ⟨(eraseAll fs (st.raw_data_filenames.getD [])).files,
              fs.dirs.filter (fun q => !(q == st.store_dir))⟩,
            st.raw_data_filenames.getD []⟩ := by
        unfold delete_io_memmaps
        simp only [hstep, hex, hb, ite_true, FS.isdirStr, hdirs, Bool.not_true,
          Bool.false_eq_true, ite_false, hempty, FS.rmdir, FS.isdirStr]
      have hdel2 : delete_io_memmaps
          ({ st with raw_data_memmaps := none, raw_data_filenames := none })
          ⟨(eraseAll fs (st.raw_data_filenames.getD [])).files,
            fs.dirs.filter (fun q => !(q == st.store_dir))⟩ = Except.ok
          ⟨{ st with raw_data_memmaps := none, raw_data_filenames := none },
            ⟨(eraseAll fs (st.raw_data_filenames.getD [])).files,
              fs.dirs.filter (fun q => !(q == st.store_dir))⟩, []⟩ := by
        unfold delete_io_memmaps
        simp only [FS.existsPath, FS.isdirStr, hlook2, contains_filter_self_false,
          Option.isSome_none, Bool.or_self, Bool.false_eq_true, ite_false]
      refine ⟨_, hdel, hdel2, rfl, rfl, fun _ => ?_, fun hc => by rw [hc] at hb; exact Bool.noConfusion hb⟩
      show (fs.dirs.filter (fun q => !(q == st.store_dir))).contains st.store_dir = false ↔ _
      rw [contains_filter_self_false fs.dirs st.store_dir, hempty]
      exact ⟨fun _ => rfl, fun _ => rfl⟩
    · -- directory exists but is not empty: kept
      have hempty' : ((eraseAll fs (st.raw_data_filenames.getD [])).listdirNames
          st.store_dir).isEmpty = false := by
        cases hx : ((eraseAll fs (st.raw_data_filenames.getD [])).listdirNames
          st.store_dir).isEmpty
        · rfl
        · exact absurd hx hempty
      have hdel : delete_io_memmaps st fs = Except.ok
          ⟨{ st with raw_data_memmaps := none, raw_data_filenames := none },
            eraseAll fs (st.raw_data_filenames.getD []),
            st.raw_data_filenames.getD []⟩ := by
        unfold delete_io_memmaps
        simp only [hstep, hex, hb, ite_true, FS.isdirStr, hdirs, Bool.not_true,
          Bool.false_eq_true, ite_false, hempty']
      have hdel2 : delete_io_memmaps
          ({ st with raw_data_memmaps := none, raw_data_filenames := none })
          (eraseAll fs (st.raw_data_filenames.getD [])) = Except.ok
          ⟨{ st with raw_data_memmaps := none, raw_data_filenames := none },
            eraseAll fs (st.raw_data_filenames.getD []), []⟩ := by
        unfold delete_io_memmaps
        simp only [FS.existsPath, FS.isdirStr, hlook, hdirs, hb, Option.isSome_none,
          Bool.false_or, ite_true, Bool.not_true, Bool.false_eq_true, ite_false, hempty']
      refine ⟨_, hdel, hdel2, rfl, rfl, fun _ => ?_, fun hc => by rw [hc] at hb; exact Bool.noConfusion hb⟩
      show (eraseAll fs (st.raw_data_filenames.getD [])).dirs.contains st.store_dir = false ↔ _
      rw [hdirs, hb, hempty']
      exact ⟨fun h => Bool.noConfusion h, fun h => Bool.noConfusion h⟩
  · -- directory does not exist: nothing to remove
      have hb' : fs.dirs.contains st.store_dir = false := by
        cases hx : fs.dirs.contains st.store_dir
        · rfl
        · exact absurd hx hb
      have hdel : delete_io_memmaps st fs = Except.ok
          ⟨{ st with raw_data_memmaps := none, raw_data_filenames := none },
            eraseAll fs (st.raw_data_filenames.getD []),
            st.raw_data_filenames.getD []⟩ := by
        unfold delete_io_memmaps
        simp only [hstep, hex, hb', Bool.false_eq_true, ite_false]
      have hdel2 : delete_io_memmaps
          ({ st with raw_data_memmaps := none, raw_data_filenames := none })
          (eraseAll fs (st.raw_data_filenames.getD [])) = Except.ok
          ⟨{ st with raw_data_memmaps := none, raw_data_filenames := none },
            eraseAll fs (st.raw_data_filenames.getD []), []⟩ := by
        unfold delete_io_memmaps
        simp only [FS.existsPath, FS.isdirStr, hlook, hdirs, hb', Option.isSome_none,
          Bool.false_or, Bool.false_eq_true, ite_false]
      exact ⟨_, hdel, hdel2, rfl, rfl, fun hc => Bool.noConfusion (hc.symm.trans hb'),
        fun _ => hdirs⟩

/-- Claim C6 witness: the teardown theorem at a concrete store whose
directory holds one of the two owned backing files. -/
theorem claim6_witness :
    ∃ out : TeardownOut,
      delete_io_memmaps c6State c6FS = Except.ok out ∧
      delete_io_memmaps out.st out.fs = Except.ok ⟨out.st, out.fs, []⟩ ∧
      out.unlink_calls = c6State.raw_data_filenames.getD [] ∧
      out.st = { c6State with raw_data_memmaps := none, raw_data_filenames := none } ∧
      (c6FS.dirs.contains c6State.store_dir = true →
        (out.fs.dirs.contains c6State.store_dir = false ↔
          ((eraseAll c6FS (c6State.raw_data_filenames.getD [])).listdirNames
            c6State.store_dir).isEmpty = true)) ∧
      (c6FS.dirs.contains c6State.store_dir = false → out.fs.dirs = c6FS.dirs) :=
  claim6_teardown_idempotent c6State c6FS rfl

/-! ### Claim C8 -/

theorem leChars_total (a : List Char) : ∀ b, leChars a b = true ∨ leChars b a = true := by
  induction a with
  | nil => intro b; left; rfl
  | cons x xs ih =>
    intro b
    cases b with
    | nil => right; rfl
    | cons y ys =>
      rcases lt_trichotomy x y with h | h | h
      · left; simp [leChars, h]
      · subst h
        rcases ih ys with h2 | h2
        · left; simp [leChars, lt_irrefl, h2]
        · right; simp [leChars, lt_irrefl, h2]
      · right; simp [leChars, h]

theorem leChars_trans : ∀ (a b c : List Char), leChars a b = true → leChars b c = true →
    leChars a c = true := by
  intro a
  induction a with
  | nil => intro b c _ _; rfl
  | cons x xs ih =>
    intro b c hab hbc
    cases b with
    | nil => simp [leChars] at hab
    | cons y ys =>
      cases c with
      | nil => simp [leChars] at hbc
      | cons z zs =>
        rcases lt_trichotomy x y with hxy | hxy | hxy
        · rcases lt_trichotomy y z with hyz | hyz | hyz
          · simp [leChars, lt_trans hxy hyz]
          · subst hyz; simp [leChars, hxy]
          · simp [leChars, lt_asymm hyz, hyz] at hbc
        · subst hxy
          rcases lt_trichotomy x z with hxz | hxz | hxz
          · simp [leChars, hxz]
          · subst hxz
            simp only [leChars, lt_irrefl, if_false, ite_false] at hab hbc ⊢
            exact ih ys zs hab hbc
          · simp [leChars, lt_asymm hxz, hxz] at hbc
        · simp [leChars, lt_asymm hxy, hxy] at hab

theorem strLe_total (a b : String) : strLe a b = true ∨ strLe b a = true :=
  leChars_total a.data b.data

theorem strLe_trans {a b c : String} (h1 : strLe a b = true) (h2 : strLe b c = true) :
    strLe a c = true :=
  leChars_trans a.data b.data c.data h1 h2

theorem strAppend_left_cancel {d a b : String} (h : d ++ a = d ++ b) : a = b := by
  have h2 := congrArg String.data h
  rw [strData_append, strData_append] at h2
  exact strExt (List.append_cancel_left h2)

/-- Claim C8: for every directory (with its entry names pairwise
distinct, as directory entries are), `list_dir` returns the full paths
of exactly the entries whose extension is in the filter (every entry,
when no filter is given), ordered by strictly increasing entry name in
the code-point lexicographic order `strLe` that Python's `sorted`
uses. -/
theorem claim8_list_dir (fs : FS) (d : String) (exts : List String)
    (hdir : fs.isdirStr d = true) (hnd : (fs.listdirNames d).Nodup) :
    (∃ names : List String,
      list_dir fs d (some exts) = Except.ok (names.map (fun n => d ++ "/" ++ n)) ∧
      List.Pairwise (fun a b => strLe a b = true ∧ a ≠ b) names ∧
      ∀ n, n ∈ names ↔ n ∈ fs.listdirNames d ∧ exts.contains (file_ext n) = true) ∧
    (∃ names : List String,
      list_dir fs d none = Except.ok (names.map (fun n => d ++ "/" ++ n)) ∧
      List.Pairwise (fun a b => strLe a b = true ∧ a ≠ b) names ∧
      ∀ n, n ∈ names ↔ n ∈ fs.listdirNames d) := by
  haveI : IsTotal String (fun a b => strLe a b = true) := ⟨strLe_total⟩
  haveI : IsTrans String (fun a b => strLe a b = true) := ⟨fun _ _ _ => strLe_trans⟩
  have hsorted : List.Sorted (fun a b => strLe a b = true) (sortedListdir fs d) :=
    List.sorted_insertionSort _ _
  have hperm : List.Perm (sortedListdir fs d) (fs.listdirNames d) :=
    List.perm_insertionSort _ _
  have hndS : (sortedListdir fs d).Nodup := hperm.nodup_iff.mpr hnd
  constructor
  · refine ⟨(sortedListdir fs d).filter (fun f => exts.contains (file_ext f)), ?_, ?_, ?_⟩
    · simp [list_dir, hdir]
    · exact (hsorted.filter _).and ((hndS.filter _) : List.Pairwise _ _)
    · intro n
      rw [List.mem_filter, hperm.mem_iff]
  · refine ⟨sortedListdir fs d, ?_, ?_, ?_⟩
    · simp [list_dir, hdir]
    · exact hsorted.and hndS
    · exact fun n => hperm.mem_iff

/-- Claim C8 witness: the lister theorem at a concrete directory holding
three files, filtered to the flat-array extension. -/
theorem claim8_witness :
    (∃ names : List String,
      list_dir ⟨[("d/b.npy", FileData.other), ("d/a.npy", FileData.other),
          ("d/c.txt", FileData.other)], ["d"]⟩ "d" (some [".npy"]) =
        Except.ok (names.map (fun n => "d" ++ "/" ++ n)) ∧
      List.Pairwise (fun a b => strLe a b = true ∧ a ≠ b) names ∧
      ∀ n, n ∈ names ↔ n ∈ (⟨[("d/b.npy", FileData.other), ("d/a.npy", FileData.other),
          ("d/c.txt", FileData.other)], ["d"]⟩ : FS).listdirNames "d" ∧
        ([".npy"] : List String).contains (file_ext n) = true) ∧
    (∃ names : List String,
      list_dir ⟨[("d/b.npy", FileData.other), ("d/a.npy", FileData.other),
          ("d/c.txt", FileData.other)], ["d"]⟩ "d" none =
        Except.ok (names.map (fun n => "d" ++ "/" ++ n)) ∧
      List.Pairwise (fun a b => strLe a b = true ∧ a ≠ b) names ∧
      ∀ n, n ∈ names ↔ n ∈ (⟨[("d/b.npy", FileData.other), ("d/a.npy", FileData.other),
          ("d/c.txt", FileData.other)], ["d"]⟩ : FS).listdirNames "d") :=
  claim8_list_dir _ "d" [".npy"] rfl (by decide)

/-! ### Claim C4 -/

theorem decodeDec_append (a : Nat) (xs ys : List Char) :
    decodeDec a (xs ++ ys) = decodeDec (decodeDec a xs) ys := by
  simp [decodeDec, List.foldl_append]

theorem digitChar_decode {k : Nat} (h : k < 10) : (Nat.digitChar k).toNat - 48 = k := by
  interval_cases k <;> rfl

theorem toDigitsCore_append10 (f : Nat) : ∀ (n : Nat) (ds : List Char),
    Nat.toDigitsCore 10 f n ds = Nat.toDigitsCore 10 f n [] ++ ds := by
  induction f with
  | zero => intro n ds; simp [Nat.toDigitsCore]
  | succ f ih =>
    intro n ds
    simp only [Nat.toDigitsCore]
    by_cases h : n / 10 = 0
    · simp [h]
    · rw [if_neg h, if_neg h, ih (n / 10) (Nat.digitChar (n % 10) :: ds),
        ih (n / 10) [Nat.digitChar (n % 10)], List.append_assoc, List.singleton_append]

theorem decode_toDigitsCore (f : Nat) : ∀ n, n < f →
    decodeDec 0 (Nat.toDigitsCore 10 f n []) = n := by
  induction f with
  | zero => intro n h; exact absurd h (Nat.not_lt_zero n)
  | succ f ih =>
    intro n h
    simp only [Nat.toDigitsCore]
    by_cases hd : n / 10 = 0
    · rw [if_pos hd]
      have h10 : n < 10 := by omega
      show decodeDec 0 [Nat.digitChar (n % 10)] = n
      simp [decodeDec, digitChar_decode (Nat.mod_lt n (by norm_num))]
      omega
    · rw [if_neg hd, toDigitsCore_append10, decodeDec_append]
      have hlt : n / 10 < f := by
        have hpos : 0 < n := by omega
        have := Nat.div_lt_self hpos (by norm_num : 1 < 10)
        omega
      rw [ih (n / 10) hlt]
      show (n / 10) * 10 + ((Nat.digitChar (n % 10)).toNat - 48) = n
      rw [digitChar_decode (Nat.mod_lt n (by norm_num))]
      omega

theorem decode_repr (n : Nat) : decodeDec 0 (Nat.toDigits 10 n) = n :=
  decode_toDigitsCore (n + 1) n (Nat.lt_succ_self n)

theorem natToString_inj {m n : Nat} (h : toString m = toString n) : m = n := by
  have h2 : Nat.toDigits 10 m = Nat.toDigits 10 n := congrArg String.data h
  have h3 := congrArg (decodeDec 0) h2
  rwa [decode_repr, decode_repr] at h3

theorem subjectPath_inj (dir : String) {i j : Nat}
    (h : subjectPath dir i = subjectPath dir j) : i = j := by
  have h2 := congrArg String.data h
  simp only [subjectPath, strData_append, List.append_assoc] at h2
  have h3 := List.append_cancel_left (List.append_cancel_left h2)
  have h4 := List.append_cancel_right h3
  exact natToString_inj (strExt h4)

theorem subjectPath_ne_prepPath (dir : String) (i : Nat) :
    subjectPath dir i ≠ prepPath dir := by
  intro h
  have h2 := congrArg String.data h
  simp only [subjectPath, prepPath, strData_append, List.append_assoc] at h2
  have h3 := List.append_cancel_left h2
  have h4 : ("/subject".data ++ ((toString i).data ++ ".npy".data)).get? 1 =
      ("/preparation.pkl".data).get? 1 := by rw [h3]
  rw [show ∀ W : List Char, ("/subject".data ++ W).get? 1 = some 's' from fun _ => rfl,
    show ("/preparation.pkl".data).get? 1 = some 'p' from rfl] at h4
  exact absurd (Option.some.inj h4) (by decide)

theorem io_save_fold_trace (sub : List NpArr) (output_dir : String) :
    ∀ (n : Nat) (fs0 : FS) (acc : List String),
    ((List.range n).foldl
      (fun (acc2 : FS × List String) i =>
        (np_save acc2.1 (subjectPath output_dir i) (sub.getD i ⟨[], DType.float32⟩),
          acc2.2 ++ [subjectPath output_dir i])) (fs0, acc)).2 =
      acc ++ (List.range n).map (subjectPath output_dir) := by
  intro n
  induction n with
  | zero => intro fs0 acc; simp
  | succ n ih =>
    intro fs0 acc
    rw [List.range_succ, List.foldl_append, List.map_append]
    simp only [List.foldl_cons, List.foldl_nil]
    rw [ih fs0 acc]
    simp [List.append_assoc]

/-- Claim C4: for every store, `save` succeeds and its write trace is
exactly one index-named array file per subject (`subject<i>.npy`, all
distinct) in the output directory, followed by the preparation record
exactly when the store is prepared. -/
theorem claim4_save_writes (st : IOState) (fs : FS) (output_dir : String) :
    (io_save st fs output_dir).2 =
      (List.range st.n_subjects).map (subjectPath output_dir) ++
        (if st.prepared then [prepPath output_dir] else []) ∧
    ((io_save st fs output_dir).2).Nodup ∧
    (prepPath output_dir ∈ (io_save st fs output_dir).2 ↔ st.prepared = true) := by
  have hinj : Function.Injective (subjectPath output_dir) :=
    fun i j h => subjectPath_inj output_dir h
  have htrace : (io_save st fs output_dir).2 =
      (List.range st.n_subjects).map (subjectPath output_dir) ++
        (if st.prepared then [prepPath output_dir] else []) := by
    unfold io_save
    cases hp : st.prepared
    · simp only [Bool.false_eq_true, if_false, ite_false]
      rw [io_save_fold_trace st.subjects output_dir st.n_subjects _ []]
      simp
    · simp only [if_true, ite_true]
      rw [io_save_fold_trace st.subjects output_dir st.n_subjects _ []]
      simp
  have hnodupSub : ((List.range st.n_subjects).map (subjectPath output_dir)).Nodup :=
    (List.nodup_range _).map hinj
  have hnotin : prepPath output_dir ∉
      (List.range st.n_subjects).map (subjectPath output_dir) := by
    intro hmem
    rcases List.mem_map.mp hmem with ⟨i, _, hi⟩
    exact subjectPath_ne_prepPath output_dir i hi
  refine ⟨htrace, ?_, ?_⟩
  · rw [htrace]
    cases hp : st.prepared
    · simpa using hnodupSub
    · simp only [if_true, ite_true]
      exact hnodupSub.append (List.nodup_singleton _)
        (fun a ha hb => hnotin (List.mem_singleton.mp hb ▸ ha))
  · rw [htrace]
    cases hp : st.prepared
    · simp only [Bool.false_eq_true, if_false, ite_false, List.append_nil]
      exact ⟨fun hmem => absurd hmem hnotin, fun hfalse => hfalse.elim⟩
    · simp [List.mem_append]

end OslDyn
